import Mathlib

/-!
Verification of the resilient-call / tolerant-parse core of the
AI-Powered Research Assistant repository.

The development shallowly embeds the service layer of
`src/services/geminiService.ts` (and its behaviourally identical copy in
`src/netlify/functions/utils/geminiClient.ts`): the retrying call wrapper
`callApiWithRetry`, the tolerant JSON extractor `extractJson`, the response
normalizer `processApiResponse`, and the orchestrator operations
(`deepSemanticSearch`, `comparePapers`, `generateKnowledgeGraphData`,
`suggestBroaderTopics`) together with the UI-level guard
`handleStartComparison` from `src/App.tsx`.

Text is modelled as `List Char` (`Str`), fallible code as `Except`/`Option`,
and asynchronous provider calls as a function from the invocation index to
that invocation's outcome; the wrapper's observable behaviour (which
invocations ran, which backoff delays elapsed, in which order) is recorded
as an explicit event trace.
-/

namespace RA

/-- Strings are modelled as lists of characters. -/
abbrev Str := List Char

/-- Decides whether `pat` is a prefix of `s` (model of `String.startsWith`
at the character-list level, used to embed the regex searches). -/
def startsWith : Str → Str → Bool
  | [], _ => true
  | _ :: _, [] => false
  | p :: ps, c :: cs => if p = c then startsWith ps cs else false

/-- Decides whether `pat` occurs contiguously anywhere in `s`;
model of JavaScript `String.prototype.includes`. -/
def occursIn (pat : Str) : Str → Bool
  | [] => pat.isEmpty
  | c :: r => if startsWith pat (c :: r) then true else occursIn pat r

/-- Character-wise ASCII lowering; model of `String.prototype.toLowerCase`
on the ASCII texts this code base compares. -/
def toLowerStr (s : Str) : Str := s.map Char.toLower

/-- Whitespace stripped by `String.prototype.trim` (the characters that can
actually occur in the modelled texts). -/
def isJsTrimWs (c : Char) : Bool :=
  c = ' ' || c = '\t' || c = '\n' || c = '\r' || c = '\x0b' || c = '\x0c'

/-- Model of `String.prototype.trim`. -/
def jsTrim (s : Str) : Str :=
  ((s.dropWhile isJsTrimWs).reverse.dropWhile isJsTrimWs).reverse

/-! ### The retrying call wrapper (`callApiWithRetry`)

Source: `src/services/geminiService.ts`, lines 20–40.  A provider call is a
function `f : Nat → Outcome α` giving the result of the `k`-th invocation
(0-indexed).  The run returns the ordered trace of observable events
(invocations performed and backoff delays awaited) together with the
wrapper's final result. -/

/-- Result of one provider invocation: resolved value or thrown error. -/
inductive Outcome (α : Type) where
  | ok (a : α)
  | err (msg : Str)

/-- Observable events of one wrapper run: `call k` is the `k`-th invocation
of the wrapped operation, `sleep ms` is an awaited backoff delay. -/
inductive RetryEvent where
  | call (k : Nat)
  | sleep (ms : Nat)

/-- Transient-overload classification of a thrown error message, embedding
`message.includes('503') || message.includes('UNAVAILABLE') ||
message.toLowerCase().includes('overloaded')`. -/
def isTransient (msg : Str) : Bool :=
  occursIn "503".data msg || occursIn "UNAVAILABLE".data msg ||
    occursIn "overloaded".data (toLowerStr msg)

/-- Message of the terminal error thrown after all retries fail. -/
def unavailableMsg : Str :=
  "The AI model is temporarily unavailable due to high demand. Please try again in a few moments.".data

/-- Loop of `callApiWithRetry`: `rem` iterations remain, the next invocation
has index `attempt`.  A successful invocation returns its value; a transient
failure awaits `initialDelay * 2 ^ attempt` and continues; any other failure
is rethrown at once; an exhausted loop throws the terminal error. -/
def retryGo {α : Type} (f : Nat → Outcome α) (initialDelay : Nat) :
    Nat → Nat → List RetryEvent × Except Str α
  | 0, _ => ([], Except.error unavailableMsg)
  | rem + 1, attempt =>
    match f attempt with
    | Outcome.ok a => ([RetryEvent.call attempt], Except.ok a)
    | Outcome.err msg =>
      if isTransient msg then
        let rest := retryGo f initialDelay rem (attempt + 1)
        (RetryEvent.call attempt :: RetryEvent.sleep (initialDelay * 2 ^ attempt) :: rest.1,
          rest.2)
      else
        ([RetryEvent.call attempt], Except.error msg)

/-- Embedding of `callApiWithRetry(apiCall, maxRetries = 3, initialDelay = 1000)`. -/
def callApiWithRetry {α : Type} (f : Nat → Outcome α)
    (maxRetries : Nat := 3) (initialDelay : Nat := 1000) :
    List RetryEvent × Except Str α :=
  retryGo f initialDelay maxRetries 0

/-- Number of invocations of the wrapped operation recorded in a trace. -/
def callCount (tr : List RetryEvent) : Nat :=
  tr.countP (fun e => match e with | RetryEvent.call _ => true | _ => false)

/-- Ordered list of backoff delays recorded in a trace. -/
def sleepsOf (tr : List RetryEvent) : List Nat :=
  tr.filterMap (fun e => match e with | RetryEvent.sleep ms => some ms | _ => none)

/-- Backoff delay that elapses immediately before the invocation with index
`k`, read off a trace: the `sleep` event directly preceding `call k`
(`none` when no delay precedes that invocation). -/
def delayBeforeCall : List RetryEvent → Nat → Option Nat
  | RetryEvent.sleep ms :: RetryEvent.call j :: rest, k =>
    if j = k then some ms else delayBeforeCall (RetryEvent.call j :: rest) k
  | _ :: rest, k => delayBeforeCall rest k
  | [], _ => none

/-- Trace produced by a run all of whose invocations fail transiently:
`rem` invocations starting at index `k`, each followed by its backoff. -/
def allTransientTrace (initialDelay : Nat) : Nat → Nat → List RetryEvent
  | _, 0 => []
  | k, rem + 1 =>
    RetryEvent.call k :: RetryEvent.sleep (initialDelay * 2 ^ k) ::
      allTransientTrace initialDelay (k + 1) rem

/-! ### The tolerant JSON extractor (`extractJson`)

Source: `src/services/geminiService.ts`, lines 48–55.  The two regular
expressions are embedded by their leftmost-match semantics:

* ```/```json\n([\s\S]*?)\n```/``` matches at the first position where the
  fence opener occurs with a fence closer somewhere after it, and the lazy
  group captures up to the first such closer;
* `/(\[[\s\S]*\]|\{[\s\S]*\})/` matches at the first position holding an
  opening delimiter with a same-kind closing delimiter somewhere after it,
  and the greedy group runs to the last such closing delimiter. -/

/-- Opening-brace and closing-brace characters. -/
def lbrace : Char := '\x7b'

/-- Closing brace. -/
def rbrace : Char := '\x7d'

/-- Fence opener `"```json\n"` of the markdown code-block regex. -/
def fenceOpen : Str := "```json\n".data

/-- Fence closer `"\n```"` of the markdown code-block regex. -/
def fenceClose : Str := "\n```".data

/-- Capture of the lazy group: text up to (excluding) the first occurrence
of the fence closer, or `none` when no closer follows. -/
def captureToClose : Str → Option Str
  | [] => none
  | c :: r =>
    if startsWith fenceClose (c :: r) then some []
    else (captureToClose r).map (fun cap => c :: cap)

/-- Leftmost match of the fenced-block regex: the capture of its group at
the first position where the fence opener occurs and a closer follows. -/
def fencedCapture : Str → Option Str
  | [] => none
  | c :: r =>
    if startsWith fenceOpen (c :: r) then
      match captureToClose ((c :: r).drop fenceOpen.length) with
      | some cap => some cap
      | none => fencedCapture r
    else fencedCapture r

/-- Decides whether the character `c` occurs in `s`. -/
def hasChar (c : Char) : Str → Bool
  | [] => false
  | x :: r => if x = c then true else hasChar c r

/-- Longest prefix of `l` ending at (and including) the last occurrence of
`c`; the empty list when `c` does not occur. -/
def takeToLastIncl (c : Char) (l : Str) : Str :=
  (l.reverse.dropWhile (fun x => x ≠ c)).reverse

/-- Leftmost match of `/(\[[\s\S]*\]|\{[\s\S]*\})/`: the span starting at
the first opening delimiter that has a same-kind closing delimiter after
it, running to the last such closing delimiter. -/
def bracketSpan : Str → Option Str
  | [] => none
  | x :: rest =>
    if x = '[' ∧ hasChar ']' rest = true then some ('[' :: takeToLastIncl ']' rest)
    else if x = lbrace ∧ hasChar rbrace rest = true then
      some (lbrace :: takeToLastIncl rbrace rest)
    else bracketSpan rest

/-- Embedding of `extractJson`: prefer the fenced capture, then the bracket
span, else return the text unchanged. -/
def extractJson (text : Str) : Str :=
  match fencedCapture text with
  | some cap => cap
  | none =>
    match bracketSpan text with
    | some s => s
    | none => text

/-! ### JSON values and a model of the builtin `JSON.parse`

The normalizer hands the extracted span to `JSON.parse`.  JSON values are
modelled syntactically; numerals keep their sign, integer digits and
fraction digits.  The parser model covers the JSON grammar without
exponent notation and without `\u` escapes (no text in this repository's
pipeline or in this development uses either); as the builtin does, it
rejects leading zeros, raw control characters in strings, unknown escapes
and trailing non-whitespace. -/

/-- Syntactic JSON numeral: sign, integer part, fraction digits. -/
structure JNumber where
  neg : Bool
  ip : Nat
  frac : List Nat
deriving DecidableEq

/-- JSON values. -/
inductive Json where
  | null
  | bool (b : Bool)
  | num (n : JNumber)
  | str (s : Str)
  | arr (elems : List Json)
  | obj (fields : List (Str × Json))

/-- JSON insignificant whitespace. -/
def isJsonWs (c : Char) : Bool :=
  c = ' ' || c = '\t' || c = '\n' || c = '\r'

/-- Drops leading JSON whitespace. -/
def skipWs (s : Str) : Str := s.dropWhile isJsonWs

/-- Decoding of a JSON string escape character. -/
def escMap (c : Char) : Option Char :=
  if c = '"' then some '"'
  else if c = '\\' then some '\\'
  else if c = '/' then some '/'
  else if c = 'b' then some '\x08'
  else if c = 'f' then some '\x0c'
  else if c = 'n' then some '\n'
  else if c = 'r' then some '\r'
  else if c = 't' then some '\t'
  else none

/-- Parses the body of a JSON string (the opening quote already consumed),
returning the decoded characters and the rest of the input. -/
def parseStringBody : Str → Option (Str × Str)
  | [] => none
  | '"' :: r => some ([], r)
  | '\\' :: e :: r =>
    (escMap e).bind (fun c => (parseStringBody r).map (fun p => (c :: p.1, p.2)))
  | c :: r =>
    if c.toNat < 32 then none
    else (parseStringBody r).map (fun p => (c :: p.1, p.2))

/-- Numeric value of a decimal digit character. -/
def digitVal (c : Char) : Nat := c.toNat - '0'.toNat

/-- Splits off the leading run of decimal digits. -/
def takeDigits : Str → List Nat × Str
  | [] => ([], [])
  | c :: r =>
    if c.isDigit then
      let p := takeDigits r
      (digitVal c :: p.1, p.2)
    else ([], c :: r)

/-- Value of a digit list read in base 10. -/
def digitsToNat (ds : List Nat) : Nat := ds.foldl (fun a d => a * 10 + d) 0

/-- Parses a JSON numeral (sign, integer digits, optional fraction). -/
def parseNumber (s : Str) : Option (Json × Str) :=
  let p := match s with
    | '-' :: r => (true, r)
    | _ => (false, s)
  match takeDigits p.2 with
  | ([], _) => none
  | (d :: ds, r) =>
    if d = 0 ∧ ds ≠ [] then none
    else
      match r with
      | '.' :: r2 =>
        match takeDigits r2 with
        | ([], _) => none
        | (fd :: fds, r3) => some (Json.num ⟨p.1, digitsToNat (d :: ds), fd :: fds⟩, r3)
      | _ => some (Json.num ⟨p.1, digitsToNat (d :: ds), []⟩, r)

mutual

/-- Parses one JSON value at the head of the input (no leading whitespace),
fuelled to make the recursion evidently terminating. -/
def parseValue : Nat → Str → Option (Json × Str)
  | 0, _ => none
  | fuel + 1, s =>
    match s with
    | [] => none
    | c :: r =>
      if c = lbrace then parseObjBody fuel r
      else if c = '[' then parseArrBody fuel r
      else if c = '"' then (parseStringBody r).map (fun p => (Json.str p.1, p.2))
      else if c = 't' then
        if startsWith "rue".data r then some (Json.bool true, r.drop 3) else none
      else if c = 'f' then
        if startsWith "alse".data r then some (Json.bool false, r.drop 4) else none
      else if c = 'n' then
        if startsWith "ull".data r then some (Json.null, r.drop 3) else none
      else parseNumber (c :: r)

/-- Parses an array body (the `[` already consumed). -/
def parseArrBody : Nat → Str → Option (Json × Str)
  | 0, _ => none
  | fuel + 1, s =>
    match skipWs s with
    | ']' :: r => some (Json.arr [], r)
    | s1 => (parseElems fuel s1).map (fun p => (Json.arr p.1, p.2))

/-- Parses one or more comma-separated array elements up to the closing
bracket. -/
def parseElems : Nat → Str → Option (List Json × Str)
  | 0, _ => none
  | fuel + 1, s =>
    match parseValue fuel s with
    | none => none
    | some (v, r) =>
      match skipWs r with
      | ',' :: r2 => (parseElems fuel (skipWs r2)).map (fun p => (v :: p.1, p.2))
      | ']' :: r2 => some ([v], r2)
      | _ => none

/-- Parses an object body (the opening brace already consumed). -/
def parseObjBody : Nat → Str → Option (Json × Str)
  | 0, _ => none
  | fuel + 1, s =>
    match skipWs s with
    | [] => none
    | c :: r =>
      if c = rbrace then some (Json.obj [], r)
      else (parseMembers fuel (c :: r)).map (fun p => (Json.obj p.1, p.2))

/-- Parses one or more comma-separated object members up to the closing
brace. -/
def parseMembers : Nat → Str → Option (List (Str × Json) × Str)
  | 0, _ => none
  | fuel + 1, s =>
    match s with
    | '"' :: r =>
      match parseStringBody r with
      | none => none
      | some (k, r1) =>
        match skipWs r1 with
        | ':' :: r2 =>
          match parseValue fuel (skipWs r2) with
          | none => none
          | some (v, r3) =>
            match skipWs r3 with
            | ',' :: r4 =>
              (parseMembers fuel (skipWs r4)).map (fun p => ((k, v) :: p.1, p.2))
            | c :: r4 => if c = rbrace then some ([(k, v)], r4) else none
            | [] => none
        | _ => none
    | _ => none

end

/-- Model of the builtin `JSON.parse`: one value, possibly surrounded by
whitespace, nothing else. -/
def jsonParse (s : Str) : Option Json :=
  match parseValue (2 * s.length + 2) (skipWs s) with
  | some (v, rest) => if skipWs rest = [] then some v else none
  | none => none

/-! ### The response normalizer (`processApiResponse`)

Source: `src/services/geminiService.ts`, lines 63–89.  The provider
response is mirrored field by field with every optionally-chained field
optional; JavaScript truthiness of the accessed strings (`!text`,
`if (blockReason)`, `if (finishReason ...)`) is embedded explicitly: a
missing string and an empty string are both falsy. -/

/-- One part of a candidate's content: `parts[i].text`. -/
structure RespPart where
  text : Option Str

/-- Content of a candidate: `content.parts`. -/
structure RespContent where
  parts : Option (List RespPart)

/-- One response candidate: `candidates[i]`. -/
structure RespCandidate where
  content : Option RespContent
  finishReason : Option Str

/-- Prompt feedback: `promptFeedback.blockReason`. -/
structure RespFeedback where
  blockReason : Option Str

/-- The raw provider response (`GenerateContentResponse`), with the
response object itself also optional to mirror `response?.`. -/
structure GenResponse where
  candidates : Option (List RespCandidate)
  promptFeedback : Option RespFeedback

/-- Field access `response?.candidates?.[0]?.content?.parts?.[0]?.text`. -/
def respText (r : Option GenResponse) : Option Str :=
  ((((((r.bind (fun x => x.candidates)).bind (fun l => l.get? 0)).bind
    (fun c => c.content)).bind (fun c => c.parts)).bind
    (fun l => l.get? 0)).bind (fun p => p.text))

/-- The text payload when it is truthy (`!text` is false): present and
non-empty. -/
def textTruthy (r : Option GenResponse) : Option Str :=
  match respText r with
  | some t => if t = [] then none else some t
  | none => none

/-- Truthy value of `response?.promptFeedback?.blockReason`. -/
def blockReasonTruthy (r : Option GenResponse) : Option Str :=
  match (r.bind (fun x => x.promptFeedback)).bind (fun f => f.blockReason) with
  | some b => if b = [] then none else some b
  | none => none

/-- Truthy value of `response?.candidates?.[0]?.finishReason`. -/
def finishReasonTruthy (r : Option GenResponse) : Option Str :=
  match ((r.bind (fun x => x.candidates)).bind (fun l => l.get? 0)).bind
      (fun c => c.finishReason) with
  | some f => if f = [] then none else some f
  | none => none

/-- The classified errors thrown by the normalizer, one constructor per
`throw` site; each carries exactly the data interpolated into the thrown
message. -/
inductive ApiError where
  | blocked (reason : Str)
  | stopped (reason : Str)
  | emptyResponse
  | malformed
deriving DecidableEq

/-- Message of the thrown `Error`, as interpolated in the source. -/
def ApiError.message : ApiError → Str
  | ApiError.blocked reason =>
    "Request blocked due to safety concerns: ".data ++ reason
  | ApiError.stopped reason =>
    "The AI model stopped generating for an unexpected reason: ".data ++ reason ++
      ". Please try again.".data
  | ApiError.emptyResponse =>
    "The AI model returned an empty or invalid response. Please try a different query.".data
  | ApiError.malformed =>
    "The AI model returned a malformed response. Could not parse JSON.".data

/-- Embedding of `processApiResponse`: no truthy text → classify as
blocked, abnormally stopped, or empty, in that order; otherwise trim,
extract and parse the text, raising the malformed-response error on parse
failure. -/
def processApiResponse (r : Option GenResponse) : Except ApiError Json :=
  match textTruthy r with
  | none =>
    match blockReasonTruthy r with
    | some br => Except.error (ApiError.blocked br)
    | none =>
      match finishReasonTruthy r with
      | some fr =>
        if fr ≠ "STOP".data then Except.error (ApiError.stopped fr)
        else Except.error ApiError.emptyResponse
      | none => Except.error ApiError.emptyResponse
  | some t =>
    match jsonParse (extractJson (jsTrim t)) with
    | some v => Except.ok v
    | none => Except.error ApiError.malformed

/-! ### Dynamic JavaScript object helpers -/

/-- Decimal rendering of a natural number. -/
def natToStr (n : Nat) : Str := (toString n).data

/-- JavaScript truthiness of a JSON value. -/
def jsTruthy : Json → Bool
  | Json.null => false
  | Json.bool b => b
  | Json.num n => !(n.ip = 0 && n.frac.all (fun d => d = 0))
  | Json.str s => !s.isEmpty
  | Json.arr _ => true
  | Json.obj _ => true

/-- Property read on an object field list; the last occurrence of a key
wins, as in a JavaScript object. -/
def jsGetField (fs : List (Str × Json)) (k : Str) : Option Json :=
  match fs with
  | [] => none
  | (k2, v) :: r =>
    match jsGetField r k with
    | some v2 => some v2
    | none => if k2 = k then some v else none

/-- Property assignment on an association list: an existing key keeps its
position and gets the new value, a new key is appended — the JavaScript
object-update semantics used by the reshape loop and the spread. -/
def jsAssign {β : Type} (obj : List (Str × β)) (k : Str) (v : β) : List (Str × β) :=
  if obj.any (fun e => decide (e.1 = k)) then
    obj.map (fun e => if e.1 = k then (k, v) else e)
  else obj ++ [(k, v)]

/-- Fields `0, 1, 2, …` produced by spreading an indexed value. -/
def indexedFields : Nat → List Json → List (Str × Json)
  | _, [] => []
  | i, v :: r => (natToStr i, v) :: indexedFields (i + 1) r

/-! ### The orchestrator operations

Source: `src/services/geminiService.ts` (`deepSemanticSearch` lines
97–167, `comparePapers` lines 169–263, `generateKnowledgeGraphData` lines
270–342, `suggestBroaderTopics` lines 349–380) and
`src/App.tsx` (`handleStartComparison` lines 121–146).  Each operation is
parameterized by the provider behaviour (outcome of each invocation) and
returns the retry trace together with its result; prompt construction is
not modelled (no claim concerns prompt text). -/

/-- A paper record, mirroring `Paper` of `src/types.ts`. -/
structure Paper where
  id : Str
  title : Str
  authors : List Str
  year : Int
  tldr : Str
  abstract : Str

/-- Identifier synthesized for a paper with a falsy `id`:
`` `${Date.now()}-${index}` `` with the clock reading passed in as `now`. -/
def synthIdStr (now idx : Nat) : Str := natToStr now ++ '-' :: natToStr idx

/-- One step of the search result mapping
`{...paper, id: paper.id || `${now}-${index}`}`: objects keep their
fields and get a truthy `id`; spreading a string or an array yields its
indexed fields; spreading another primitive yields no fields; reading
`id` off `null` throws a `TypeError`. -/
def synthPaper (now idx : Nat) : Json → Except Str Json
  | Json.obj fs =>
    let newId := match jsGetField fs "id".data with
      | some v => if jsTruthy v then v else Json.str (synthIdStr now idx)
      | none => Json.str (synthIdStr now idx)
    Except.ok (Json.obj (jsAssign fs "id".data newId))
  | Json.null => Except.error "TypeError: Cannot read properties of null".data
  | Json.str s =>
    Except.ok (Json.obj (indexedFields 0 (s.map (fun c => Json.str [c])) ++
      [("id".data, Json.str (synthIdStr now idx))]))
  | Json.arr a =>
    Except.ok (Json.obj (indexedFields 0 a ++
      [("id".data, Json.str (synthIdStr now idx))]))
  | _ =>
    Except.ok (Json.obj [("id".data, Json.str (synthIdStr now idx))])

/-- The `papers.map((paper, index) => ...)` of the search operation. -/
def mapPapersWithId (now : Nat) : Nat → List Json → Except Str (List Json)
  | _, [] => Except.ok []
  | i, p :: r =>
    match synthPaper now i p with
    | Except.error e => Except.error e
    | Except.ok p2 => (mapPapersWithId now (i + 1) r).map (fun l => p2 :: l)

/-- Embedding of `deepSemanticSearch`: retrying provider call, normalize,
then return the mapped array — or the empty list when the parsed payload
is not an array; all errors are rethrown unchanged by the surrounding
`catch`. -/
def deepSemanticSearchRun (now : Nat) (_query : Str) (_systematic : Bool)
    (provider : Nat → Outcome (Option GenResponse)) :
    List RetryEvent × Except Str (List Json) :=
  let run := callApiWithRetry provider 3 1000
  (run.1,
    match run.2 with
    | Except.error m => Except.error m
    | Except.ok resp =>
      match processApiResponse resp with
      | Except.error e => Except.error e.message
      | Except.ok (Json.arr papers) => mapPapersWithId now 0 papers
      | Except.ok _ => Except.ok [])

/-- A reshaped comparison point, mirroring `ComparisonPoint` of
`src/types.ts`. -/
structure ComparisonPoint where
  value : Str
  confidenceScore : JNumber
  sourceSentence : Str
deriving DecidableEq

/-- A wire-format per-paper point of one comparison aspect, as declared in
the request's `responseSchema` (all four fields required). -/
structure RawPoint where
  paperId : Str
  value : Str
  confidenceScore : JNumber
  sourceSentence : Str

/-- A wire-format comparison aspect: a name and a list of per-paper
points. -/
structure RawAspect where
  aspect : Str
  papers : List RawPoint

/-- A reshaped aspect: the name and the `papersObject` keyed by paper
identifier. -/
structure TAspect where
  aspect : Str
  papers : List (Str × ComparisonPoint)

/-- Drops the key from a wire point. -/
def toPoint (p : RawPoint) : ComparisonPoint :=
  ⟨p.value, p.confidenceScore, p.sourceSentence⟩

/-- The `aspect.papers.forEach(paperData => papersObject[paperData.paperId]
= {...})` loop building one aspect's mapping. -/
def buildPapersObject (pts : List RawPoint) : List (Str × ComparisonPoint) :=
  pts.foldl (fun acc p => jsAssign acc p.paperId (toPoint p)) []

/-- The `rawResult.comparison.map(aspect => ...)` reshape of
`comparePapers`. -/
def transformComparison (aspects : List RawAspect) : List TAspect :=
  aspects.map (fun a => ⟨a.aspect, buildPapersObject a.papers⟩)

/-- Reads the wire shape of one comparison point off a parsed JSON value.
The declared `responseSchema` makes all four fields required; a payload of
any other shape would make the untyped reshape loop misbehave or throw, and
is mapped to `none` (surfaced below as a thrown `TypeError`). -/
def decodePoint : Json → Option RawPoint
  | Json.obj fs =>
    match jsGetField fs "paperId".data, jsGetField fs "value".data,
      jsGetField fs "confidenceScore".data, jsGetField fs "sourceSentence".data with
    | some (Json.str pid), some (Json.str v), some (Json.num n), some (Json.str ss) =>
      some ⟨pid, v, n, ss⟩
    | _, _, _, _ => none
  | _ => none

/-- Reads one wire-format aspect off a parsed JSON value. -/
def decodeAspect : Json → Option RawAspect
  | Json.obj fs =>
    match jsGetField fs "aspect".data, jsGetField fs "papers".data with
    | some (Json.str a), some (Json.arr ps) =>
      (ps.mapM decodePoint).map (fun l => ⟨a, l⟩)
    | _, _ => none
  | _ => none

/-- Reads the `comparison` array off the parsed comparison payload. -/
def decodeComparisonPayload : Json → Option (List RawAspect)
  | Json.obj fs =>
    match jsGetField fs "comparison".data with
    | some (Json.arr asps) => asps.mapM decodeAspect
    | _ => none
  | _ => none

/-- Embedding of `comparePapers`: retrying provider call, normalize, then
reshape; the result keeps the whole parsed payload (the `...rawResult`
spread) next to the transformed comparison. -/
def comparePapersRun (_papers : List Paper)
    (provider : Nat → Outcome (Option GenResponse)) :
    List RetryEvent × Except Str (Json × List TAspect) :=
  let run := callApiWithRetry provider 3 1000
  (run.1,
    match run.2 with
    | Except.error m => Except.error m
    | Except.ok resp =>
      match processApiResponse resp with
      | Except.error e => Except.error e.message
      | Except.ok v =>
        match decodeComparisonPayload v with
        | some raw => Except.ok (v, transformComparison raw)
        | none => Except.error "TypeError".data)

/-- Embedding of `generateKnowledgeGraphData`: retrying provider call,
then the normalized payload is returned as-is — no reshape and no
validation of any kind is applied to it. -/
def generateKnowledgeGraphDataRun (_papers : List Paper)
    (provider : Nat → Outcome (Option GenResponse)) :
    List RetryEvent × Except Str Json :=
  let run := callApiWithRetry provider 3 1000
  (run.1,
    match run.2 with
    | Except.error m => Except.error m
    | Except.ok resp =>
      match processApiResponse resp with
      | Except.error e => Except.error e.message
      | Except.ok v => Except.ok v)

/-- Embedding of `suggestBroaderTopics`: an empty result list
short-circuits to the empty array before any provider interaction;
otherwise retrying call and normalize. -/
def suggestBroaderTopicsRun (_query : Str) (results : List Paper)
    (provider : Nat → Outcome (Option GenResponse)) :
    List RetryEvent × Except Str Json :=
  if results.length = 0 then ([], Except.ok (Json.arr []))
  else
    let run := callApiWithRetry provider 3 1000
    (run.1,
      match run.2 with
      | Except.error m => Except.error m
      | Except.ok resp =>
        match processApiResponse resp with
        | Except.error e => Except.error e.message
        | Except.ok v => Except.ok v)

/-- Message of the alert raised by the compare guard in `src/App.tsx`. -/
def compareAlertMsg : Str := "Please select at least two papers to compare.".data

/-- Message set by the `catch` of `handleStartComparison`. -/
def compareFailMsg : Str := "Failed to generate comparison. Please try again.".data

/-- Embedding of `handleStartComparison` (`src/App.tsx`): fewer than two
selected papers surfaces the local validation message and nothing else
runs; otherwise the comparison and knowledge-graph requests are issued
concurrently and joined all-or-nothing.  The second component counts the
provider invocations performed. -/
def handleStartComparison (papersForComparison : List Paper)
    (cmpProvider kgProvider : Nat → Outcome (Option GenResponse)) :
    Except Str ((Json × List TAspect) × Json) × Nat :=
  if papersForComparison.length < 2 then
    (Except.error compareAlertMsg, 0)
  else
    let c := comparePapersRun papersForComparison cmpProvider
    let g := generateKnowledgeGraphDataRun papersForComparison kgProvider
    (match c.2, g.2 with
      | Except.ok rc, Except.ok rg => Except.ok (rc, rg)
      | _, _ => Except.error compareFailMsg,
      callCount c.1 + callCount g.1)

/-! ### The knowledge-graph referential invariant (specification side) -/

/-- Reads a string-valued field of a JSON object. -/
def jsonStrField (j : Json) (k : Str) : Option Str :=
  match j with
  | Json.obj fs =>
    match jsGetField fs k with
    | some (Json.str s) => some s
    | _ => none
  | _ => none

/-- Identifiers of the nodes of a knowledge-graph payload. -/
def kgNodeIds (g : Json) : List Str :=
  match g with
  | Json.obj fs =>
    match jsGetField fs "nodes".data with
    | some (Json.arr ns) => ns.filterMap (fun n => jsonStrField n "id".data)
    | _ => []
  | _ => []

/-- Source/target pairs of the links of a knowledge-graph payload. -/
def kgLinkEndpoints (g : Json) : List (Option Str × Option Str) :=
  match g with
  | Json.obj fs =>
    match jsGetField fs "links".data with
    | some (Json.arr ls) =>
      ls.map (fun l => (jsonStrField l "source".data, jsonStrField l "target".data))
    | _ => []
  | _ => []

/-- Stated from the spec's invariant (not implemented by the source):
every link's source and target id references the id of some node. -/
def specLinksResolve (g : Json) : Bool :=
  (kgLinkEndpoints g).all (fun e =>
    match e with
    | (some s, some t) =>
      (kgNodeIds g).any (fun i => decide (i = s)) &&
        (kgNodeIds g).any (fun i => decide (i = t))
    | _ => false)

/-- Array test used by the search operation (`Array.isArray`). -/
def isArr : Json → Bool
  | Json.arr _ => true
  | _ => false

/-- Number of entries of an object association list carrying a given key. -/
def countKey {β : Type} (obj : List (Str × β)) (k : Str) : Nat :=
  obj.countP (fun e => decide (e.1 = k))

/-! ### Concrete fixtures for witnesses and counterexamples -/

/-- Builds a provider response with the given text payload, block reason
and finish reason. -/
def mkResp (text block finish : Option String) : Option GenResponse :=
  some (GenResponse.mk
    (some [RespCandidate.mk
      (some (RespContent.mk (some [RespPart.mk (text.map String.data)])))
      (finish.map String.data)])
    (block.map (fun b => RespFeedback.mk (some b.data))))

/-- Response carrying both a safety block reason and a JSON text payload. -/
def respBlockedWithText : Option GenResponse := mkResp (some "[]") (some "SAFETY") none

/-- Response carrying a safety block reason and no text payload. -/
def respBlockedNoText : Option GenResponse := mkResp none (some "SAFETY") none

/-- Response whose text payload is prose containing no JSON. -/
def respSorry : Option GenResponse := mkResp (some "Sorry, I cannot help.") none none

/-- Response whose text payload parses to the empty JSON object. -/
def respEmptyObj : Option GenResponse := mkResp (some "\x7b\x7d") none none

/-- Knowledge-graph payload whose single link targets a node id that no
node declares. -/
def kgDangling : Json :=
  Json.obj [("nodes".data, Json.arr [Json.obj
      [("id".data, Json.str "p1".data),
       ("group".data, Json.num ⟨false, 1, []⟩),
       ("label".data, Json.str "Paper".data)]]),
    ("links".data, Json.arr [Json.obj
      [("source".data, Json.str "p1".data),
       ("target".data, Json.str "ghost".data),
       ("value".data, Json.num ⟨false, 3, []⟩)]])]

/-- Response whose text payload parses to `kgDangling`. -/
def respKGDangling : Option GenResponse :=
  mkResp (some "\x7b\"nodes\":[\x7b\"id\":\"p1\",\"group\":1,\"label\":\"Paper\"\x7d],\"links\":[\x7b\"source\":\"p1\",\"target\":\"ghost\",\"value\":3\x7d]\x7d")
    none none

/-- Provider resolving every invocation with the dangling-link response. -/
def kgProvider : Nat → Outcome (Option GenResponse) :=
  fun _ => Outcome.ok respKGDangling

/-- Provider resolving every invocation with the empty-object response. -/
def providerObj : Nat → Outcome (Option GenResponse) :=
  fun _ => Outcome.ok respEmptyObj

/-- Operation rejecting every invocation with a transient 503 error. -/
def f503 : Nat → Outcome Unit :=
  fun _ => Outcome.err "503 Service Unavailable".data

/-- Operation rejecting every invocation with a non-transient error. -/
def fSchema : Nat → Outcome Unit :=
  fun _ => Outcome.err "Invalid schema supplied".data

/-- Provider rejecting every invocation (never consulted by guards). -/
def providerErr : Nat → Outcome (Option GenResponse) :=
  fun _ => Outcome.err "x".data

/-- A sample selected paper. -/
def paperA : Paper :=
  ⟨"p1".data, "Attention Is All You Need".data, ["Vaswani".data], 2017,
    "tldr".data, "abstract".data⟩

/-- Wire-format aspect with points for two papers. -/
def aspectM : RawAspect :=
  ⟨"Methodology".data,
    [⟨"p1".data, "transformers".data, ⟨false, 0, [9]⟩, "s1".data⟩,
     ⟨"p2".data, "cnns".data, ⟨false, 0, [8]⟩, "s2".data⟩]⟩

/-! ### Substring structure of the extractor -/

/-- Dropping a while-prefix splits the list. -/
theorem dropWhile_decomp {α : Type} (p : α → Bool) :
    ∀ l : List α, ∃ t, l = t ++ l.dropWhile p := by
  intro l
  induction l with
  | nil => exact ⟨[], rfl⟩
  | cons c r ih =>
    by_cases h : p c = true
    · obtain ⟨t, ht⟩ := ih
      refine ⟨c :: t, ?_⟩
      rw [List.dropWhile_cons, if_pos h, List.cons_append]
      exact congrArg (List.cons c) ht
    · refine ⟨[], ?_⟩
      rw [List.dropWhile_cons, if_neg h, List.nil_append]

/-- The span up to the last occurrence of a character is an initial
segment. -/
theorem takeToLastIncl_decomp (c : Char) (l : Str) :
    ∃ rest, l = takeToLastIncl c l ++ rest := by
  obtain ⟨t, ht⟩ := dropWhile_decomp (fun x => decide (x ≠ c)) l.reverse
  refine ⟨t.reverse, ?_⟩
  unfold takeToLastIncl
  have h2 := congrArg List.reverse ht
  simpa [List.reverse_append] using h2

/-- The fenced capture is an initial segment of the remaining text. -/
theorem captureToClose_decomp :
    ∀ l cap : Str, captureToClose l = some cap → ∃ rest, l = cap ++ rest := by
  intro l
  induction l with
  | nil => intro cap h; simp [captureToClose] at h
  | cons c r ih =>
    intro cap h
    unfold captureToClose at h
    by_cases hs : startsWith fenceClose (c :: r) = true
    · rw [if_pos hs] at h
      cases h
      exact ⟨c :: r, rfl⟩
    · rw [if_neg hs] at h
      cases hcr : captureToClose r with
      | none => rw [hcr] at h; simp at h
      | some cap2 =>
        rw [hcr] at h
        simp only [Option.map] at h
        cases h
        obtain ⟨rest, hrest⟩ := ih cap2 hcr
        exact ⟨rest, by rw [List.cons_append, ← hrest]⟩

/-- A fenced capture occurs contiguously in the input. -/
theorem fencedCapture_infix :
    ∀ l cap : Str, fencedCapture l = some cap → ∃ pre suf, pre ++ cap ++ suf = l := by
  intro l
  induction l with
  | nil => intro cap h; simp [fencedCapture] at h
  | cons c r ih =>
    intro cap h
    unfold fencedCapture at h
    by_cases hs : startsWith fenceOpen (c :: r) = true
    · rw [if_pos hs] at h
      cases hcc : captureToClose ((c :: r).drop fenceOpen.length) with
      | none =>
        rw [hcc] at h
        obtain ⟨pre, suf, hp⟩ := ih cap h
        exact ⟨c :: pre, suf, by simpa using congrArg (List.cons c) hp⟩
      | some cap2 =>
        rw [hcc] at h
        cases h
        obtain ⟨rest, hrest⟩ := captureToClose_decomp _ _ hcc
        refine ⟨(c :: r).take fenceOpen.length, rest, ?_⟩
        conv_rhs => rw [← List.take_append_drop fenceOpen.length (c :: r)]
        rw [hrest, List.append_assoc]
    · rw [if_neg hs] at h
      obtain ⟨pre, suf, hp⟩ := ih cap h
      exact ⟨c :: pre, suf, by simpa using congrArg (List.cons c) hp⟩

/-- A bracket span occurs contiguously in the input. -/
theorem bracketSpan_infix :
    ∀ t s : Str, bracketSpan t = some s → ∃ pre suf, pre ++ s ++ suf = t := by
  intro t
  induction t with
  | nil => intro s h; simp [bracketSpan] at h
  | cons x rest ih =>
    intro s h
    unfold bracketSpan at h
    by_cases h1 : x = '[' ∧ hasChar ']' rest = true
    · rw [if_pos h1] at h
      cases h
      obtain ⟨rr, hrr⟩ := takeToLastIncl_decomp ']' rest
      exact ⟨[], rr, by rw [List.nil_append, List.cons_append, ← hrr, h1.1]⟩
    · rw [if_neg h1] at h
      by_cases h2 : x = lbrace ∧ hasChar rbrace rest = true
      · rw [if_pos h2] at h
        cases h
        obtain ⟨rr, hrr⟩ := takeToLastIncl_decomp rbrace rest
        exact ⟨[], rr, by rw [List.nil_append, List.cons_append, ← hrr, h2.1]⟩
      · rw [if_neg h2] at h
        obtain ⟨pre, suf, hp⟩ := ih s h
        exact ⟨x :: pre, suf, by simpa using congrArg (List.cons x) hp⟩

/-- C10: for every input string, the JSON extractor returns either the
input itself or a contiguous substring of it — never text that does not
occur verbatim in the input. -/
theorem extractJson_substring (t : Str) :
    ∃ pre suf : Str, pre ++ extractJson t ++ suf = t := by
  unfold extractJson
  cases hf : fencedCapture t with
  | some cap => exact fencedCapture_infix t cap hf
  | none =>
    cases hb : bracketSpan t with
    | some s => exact bracketSpan_infix t s hb
    | none => exact ⟨[], [], by simp⟩

/-- The bracket-span scan settles on a brace span exactly when the first
viable opening delimiter is a brace. -/
theorem bracketSpan_obj :
    ∀ pre suf : Str, lbrace ∉ pre → '[' ∉ pre → hasChar rbrace suf = true →
      bracketSpan (pre ++ lbrace :: suf) = some (lbrace :: takeToLastIncl rbrace suf) := by
  intro pre
  induction pre with
  | nil =>
    intro suf _ _ hc
    show bracketSpan (lbrace :: suf) = _
    unfold bracketSpan
    rw [if_neg (fun hcon => absurd hcon.1 (by decide)), if_pos ⟨rfl, hc⟩]
  | cons x pre2 ih =>
    intro suf h1 h2 hc
    simp only [List.mem_cons, not_or] at h1 h2
    show bracketSpan (x :: (pre2 ++ lbrace :: suf)) = _
    unfold bracketSpan
    rw [if_neg (fun hcon => absurd hcon.1.symm h2.1),
      if_neg (fun hcon => absurd hcon.1.symm h1.1)]
    exact ih suf h1.2 h2.2 hc

/-- The bracket-span scan settles on a bracket span exactly when the first
viable opening delimiter is a bracket. -/
theorem bracketSpan_arr :
    ∀ pre suf : Str, lbrace ∉ pre → '[' ∉ pre → hasChar ']' suf = true →
      bracketSpan (pre ++ '[' :: suf) = some ('[' :: takeToLastIncl ']' suf) := by
  intro pre
  induction pre with
  | nil =>
    intro suf _ _ hc
    show bracketSpan ('[' :: suf) = _
    unfold bracketSpan
    rw [if_pos ⟨rfl, hc⟩]
  | cons x pre2 ih =>
    intro suf h1 h2 hc
    simp only [List.mem_cons, not_or] at h1 h2
    show bracketSpan (x :: (pre2 ++ '[' :: suf)) = _
    unfold bracketSpan
    rw [if_neg (fun hcon => absurd hcon.1.symm h2.1),
      if_neg (fun hcon => absurd hcon.1.symm h1.1)]
    exact ih suf h1.2 h2.2 hc

/-- C7 (amended): on input with no JSON-tagged fenced block, the extractor
returns the span starting at the first opening delimiter that has a
same-kind closer after it — a brace or a bracket, whichever comes first —
and running to the last same-kind closing delimiter; the object span is
returned only when the brace comes first, and the array span when the
bracket comes first. -/
theorem extractJson_first_opening_delimiter :
    (∀ pre suf : Str, fencedCapture (pre ++ lbrace :: suf) = none →
      lbrace ∉ pre → '[' ∉ pre → hasChar rbrace suf = true →
      extractJson (pre ++ lbrace :: suf) = lbrace :: takeToLastIncl rbrace suf) ∧
    (∀ pre suf : Str, fencedCapture (pre ++ '[' :: suf) = none →
      lbrace ∉ pre → '[' ∉ pre → hasChar ']' suf = true →
      extractJson (pre ++ '[' :: suf) = '[' :: takeToLastIncl ']' suf) := by
  constructor
  · intro pre suf hf h1 h2 hc
    unfold extractJson
    rw [hf, bracketSpan_obj pre suf h1 h2 hc]
  · intro pre suf hf h1 h2 hc
    unfold extractJson
    rw [hf, bracketSpan_arr pre suf h1 h2 hc]

/-- Witness for C7 (amended) at a concrete input: prose followed by an
object span containing a nested bracket. -/
theorem extractJson_first_opening_delimiter_witness :
    extractJson ("note ".data ++ lbrace :: "\"a\": [1]\x7d tail".data) =
      lbrace :: takeToLastIncl rbrace "\"a\": [1]\x7d tail".data :=
  extractJson_first_opening_delimiter.1 "note ".data "\"a\": [1]\x7d tail".data
    rfl (by decide) (by decide) (by decide)

/-- C7 counterexample: with no fenced block and both an array span and a
later object span present, the extractor returns the array span, not the
object span. -/
theorem extractJson_array_not_object_ce :
    extractJson "[1] \x7b\"a\":2\x7d".data = "[1]".data ∧
      "[1]".data ≠ "\x7b\"a\":2\x7d".data := by
  exact ⟨rfl, by decide⟩

/-! ### Behaviour of the retry wrapper -/

/-- A run all of whose invocations fail transiently produces the
all-transient trace and ends in the terminal error. -/
theorem retryGo_allTransient {α : Type} (f : Nat → Outcome α) (d : Nat) :
    ∀ rem k : Nat,
      (∀ j, j < rem → ∃ m, f (k + j) = Outcome.err m ∧ isTransient m = true) →
      retryGo f d rem k = (allTransientTrace d k rem, Except.error unavailableMsg) := by
  intro rem
  induction rem with
  | zero => intro k _; rfl
  | succ n ih =>
    intro k h
    obtain ⟨m, hm, ht⟩ := h 0 (Nat.succ_pos n)
    have hm2 : f k = Outcome.err m := by simpa using hm
    have hrec := ih (k + 1) (fun j hj => by
      obtain ⟨m2, hm3, ht2⟩ := h (j + 1) (Nat.succ_lt_succ hj)
      refine ⟨m2, ?_, ht2⟩
      rw [show k + 1 + j = k + (j + 1) from by omega]
      exact hm3)
    show retryGo f d (n + 1) k = _
    simp only [retryGo, hm2, ht, if_true, hrec, allTransientTrace]

/-- An invocation event adds one to the invocation count. -/
theorem callCount_cons_call (k : Nat) (tr : List RetryEvent) :
    callCount (RetryEvent.call k :: tr) = callCount tr + 1 := by
  simp [callCount, List.countP_cons]

/-- A delay event leaves the invocation count unchanged. -/
theorem callCount_cons_sleep (ms : Nat) (tr : List RetryEvent) :
    callCount (RetryEvent.sleep ms :: tr) = callCount tr := by
  simp [callCount, List.countP_cons]

/-- An invocation event adds no recorded delay. -/
theorem sleepsOf_cons_call (k : Nat) (tr : List RetryEvent) :
    sleepsOf (RetryEvent.call k :: tr) = sleepsOf tr := by
  simp [sleepsOf, List.filterMap_cons]

/-- A delay event records its delay. -/
theorem sleepsOf_cons_sleep (ms : Nat) (tr : List RetryEvent) :
    sleepsOf (RetryEvent.sleep ms :: tr) = ms :: sleepsOf tr := by
  simp [sleepsOf, List.filterMap_cons]

/-- The all-transient trace records one invocation per iteration. -/
theorem callCount_allTransientTrace (d : Nat) :
    ∀ rem k : Nat, callCount (allTransientTrace d k rem) = rem := by
  intro rem
  induction rem with
  | zero => intro k; rfl
  | succ n ih =>
    intro k
    show callCount (RetryEvent.call k :: RetryEvent.sleep (d * 2 ^ k) ::
      allTransientTrace d (k + 1) n) = n + 1
    rw [callCount_cons_call, callCount_cons_sleep, ih (k + 1)]

/-- The all-transient trace records the exponential backoff schedule. -/
theorem sleepsOf_allTransientTrace (d : Nat) :
    ∀ rem k : Nat,
      sleepsOf (allTransientTrace d k rem) =
        (List.range rem).map (fun j => d * 2 ^ (k + j)) := by
  intro rem
  induction rem with
  | zero => intro k; rfl
  | succ n ih =>
    intro k
    show sleepsOf (RetryEvent.call k :: RetryEvent.sleep (d * 2 ^ k) ::
      allTransientTrace d (k + 1) n) = _
    rw [sleepsOf_cons_call, sleepsOf_cons_sleep, ih (k + 1),
      List.range_succ_eq_map, List.map_cons, List.map_map]
    congr 1
    exact List.map_congr_left (fun j _ => by
      simp only [Function.comp]
      rw [show k + 1 + j = k + (j + 1) from by omega])

/-- C2: a wrapped operation whose every invocation throws a transient
(503 / UNAVAILABLE / overloaded) error is invoked exactly `maxRetries`
times and the wrapper then raises the single terminal provider-unavailable
error; an operation whose first invocation throws a non-transient error is
invoked exactly once and that error propagates unchanged. -/
theorem callApiWithRetry_retry_policy :
    (∀ (α : Type) (f : Nat → Outcome α) (m d : Nat),
      (∀ j, j < m → ∃ msg, f j = Outcome.err msg ∧ isTransient msg = true) →
      (callApiWithRetry f m d).2 = Except.error unavailableMsg ∧
        callCount (callApiWithRetry f m d).1 = m) ∧
    (∀ (α : Type) (f : Nat → Outcome α) (m d : Nat) (msg : Str),
      0 < m → f 0 = Outcome.err msg → isTransient msg = false →
      callApiWithRetry f m d = ([RetryEvent.call 0], Except.error msg)) := by
  constructor
  · intro α f m d h
    have hrun : retryGo f d m 0 = (allTransientTrace d 0 m, Except.error unavailableMsg) :=
      retryGo_allTransient f d m 0 (fun j hj => by
        obtain ⟨msg, hm, ht⟩ := h j hj
        exact ⟨msg, by rwa [Nat.zero_add], ht⟩)
    unfold callApiWithRetry
    rw [hrun]
    exact ⟨rfl, callCount_allTransientTrace d m 0⟩
  · intro α f m d msg hm h0 ht
    obtain ⟨n, rfl⟩ := Nat.exists_eq_succ_of_ne_zero (Nat.pos_iff_ne_zero.mp hm)
    unfold callApiWithRetry
    simp only [retryGo, h0, ht, if_false]
    rfl

/-- Witness for C2: three transient 503 failures exhaust the three default
attempts and end in the terminal error; a schema error fails fast after one
invocation. -/
theorem callApiWithRetry_retry_policy_witness :
    ((callApiWithRetry f503 3 1000).2 = Except.error unavailableMsg ∧
      callCount (callApiWithRetry f503 3 1000).1 = 3) ∧
      callApiWithRetry fSchema 3 1000 =
        ([RetryEvent.call 0], Except.error "Invalid schema supplied".data) :=
  ⟨callApiWithRetry_retry_policy.1 Unit f503 3 1000
      (fun j _ => ⟨"503 Service Unavailable".data, rfl, by decide⟩),
    callApiWithRetry_retry_policy.2 Unit fSchema 3 1000
      "Invalid schema supplied".data (by decide) rfl (by decide)⟩

/-- C3 (amended): on the all-transient path, the backoff delay that
elapses immediately after failed attempt `k` — before attempt `k + 1`
when one follows, and before the terminal error after the last attempt —
equals `initialDelay * 2 ^ k`: the recorded delays are exactly
`initialDelay, 2 * initialDelay, 4 * initialDelay, …`. -/
theorem backoff_schedule_after_attempts :
    ∀ (α : Type) (f : Nat → Outcome α) (m d : Nat),
      (∀ j, j < m → ∃ msg, f j = Outcome.err msg ∧ isTransient msg = true) →
      sleepsOf (callApiWithRetry f m d).1 = (List.range m).map (fun k => d * 2 ^ k) := by
  intro α f m d h
  have hrun : retryGo f d m 0 = (allTransientTrace d 0 m, Except.error unavailableMsg) :=
    retryGo_allTransient f d m 0 (fun j hj => by
      obtain ⟨msg, hm, ht⟩ := h j hj
      exact ⟨msg, by rwa [Nat.zero_add], ht⟩)
  unfold callApiWithRetry
  rw [hrun]
  have := sleepsOf_allTransientTrace d m 0
  simpa [Nat.zero_add] using this

/-- Witness for C3 (amended): the three default attempts against a 503
provider record the delays 1000, 2000, 4000. -/
theorem backoff_schedule_after_attempts_witness :
    sleepsOf (callApiWithRetry f503 3 1000).1 =
      (List.range 3).map (fun k => 1000 * 2 ^ k) :=
  backoff_schedule_after_attempts Unit f503 3 1000
    (fun j _ => ⟨"503 Service Unavailable".data, rfl, by decide⟩)

/-- C3 counterexample: the delay that elapses before attempt 1 (0-indexed)
is `initialDelay * 2 ^ 0 = 1000`, not `initialDelay * 2 ^ 1`. -/
theorem backoff_delay_before_attempt_ce :
    delayBeforeCall (callApiWithRetry f503 3 1000).1 1 = some 1000 ∧
      some 1000 ≠ some (1000 * 2 ^ 1) := by
  exact ⟨rfl, by decide⟩

/-! ### Behaviour of the response normalizer -/

/-- C1 (amended): when no truthy text payload is present, a set block
reason makes the normalizer fail with the blocked-content error carrying
that reason, ahead of the finish-reason and empty-response checks; a
truthy text payload bypasses the block-reason check entirely. -/
theorem processApiResponse_blocked_without_text :
    ∀ (r : Option GenResponse) (b : Str),
      textTruthy r = none → blockReasonTruthy r = some b →
      processApiResponse r = Except.error (ApiError.blocked b) := by
  intro r b h1 h2
  unfold processApiResponse
  rw [h1, h2]

/-- Witness for C1 (amended): a blocked response with no text payload. -/
theorem processApiResponse_blocked_without_text_witness :
    processApiResponse respBlockedNoText = Except.error (ApiError.blocked "SAFETY".data) :=
  processApiResponse_blocked_without_text respBlockedNoText "SAFETY".data rfl rfl

/-- C1 counterexample: a response carrying both the block reason `SAFETY`
and the text payload `[]` is not surfaced as a blocked-content failure —
the normalizer parses the text and succeeds. -/
theorem processApiResponse_blocked_ignored_with_text_ce :
    blockReasonTruthy respBlockedWithText = some "SAFETY".data ∧
      processApiResponse respBlockedWithText = Except.ok (Json.arr []) := by
  exact ⟨rfl, rfl⟩

/-- C6 (amended): a truthy text payload whose extracted span fails to
parse as JSON makes the normalizer raise the distinct malformed-response
error — it never returns data.  The raised error has a fixed message; the
offending text is written to the console log, not attached to the error. -/
theorem processApiResponse_malformed_on_parse_failure :
    ∀ (r : Option GenResponse) (t : Str),
      textTruthy r = some t → jsonParse (extractJson (jsTrim t)) = none →
      processApiResponse r = Except.error ApiError.malformed := by
  intro r t h1 h2
  unfold processApiResponse
  rw [h1]
  show (match jsonParse (extractJson (jsTrim t)) with
    | some v => Except.ok v
    | none => Except.error ApiError.malformed) = Except.error ApiError.malformed
  rw [h2]

/-- Witness for C6 (amended): the plain-prose mock payload. -/
theorem processApiResponse_malformed_on_parse_failure_witness :
    processApiResponse respSorry = Except.error ApiError.malformed :=
  processApiResponse_malformed_on_parse_failure respSorry
    "Sorry, I cannot help.".data rfl rfl

/-- C6 counterexample: the malformed-response error raised for the
unparseable payload `"Sorry, I cannot help."` does not carry that text —
its message is the fixed string, in which the offending text does not
occur. -/
theorem malformed_error_lacks_text_ce :
    processApiResponse respSorry = Except.error ApiError.malformed ∧
      occursIn "Sorry, I cannot help.".data (ApiError.message ApiError.malformed) = false := by
  exact ⟨rfl, by decide⟩

/-! ### Behaviour of the orchestrator operations -/

/-- C4: fewer than two selected papers makes the compare flow surface the
local validation message at once, with zero provider invocations — the
provider is never consulted before this validation. -/
theorem compare_validates_before_provider :
    ∀ (papers : List Paper) (cmpP kgP : Nat → Outcome (Option GenResponse)),
      papers.length < 2 →
      handleStartComparison papers cmpP kgP = (Except.error compareAlertMsg, 0) := by
  intro papers cmpP kgP h
  unfold handleStartComparison
  rw [if_pos h]

/-- Witness for C4: a single selected paper against a failing provider. -/
theorem compare_validates_before_provider_witness :
    handleStartComparison [paperA] providerErr providerErr =
      (Except.error compareAlertMsg, 0) :=
  compare_validates_before_provider [paperA] providerErr providerErr (by decide)

/-- C5 (amended): the knowledge-graph operation returns the normalized
payload unchanged — no validation that link endpoints reference declared
node ids is applied, so a payload violating the referential invariant is
returned to the caller rather than surfaced as an error. -/
theorem kg_no_link_validation :
    ∀ (papers : List Paper) (provider : Nat → Outcome (Option GenResponse))
      (resp : Option GenResponse) (g : Json),
      provider 0 = Outcome.ok resp → processApiResponse resp = Except.ok g →
      (generateKnowledgeGraphDataRun papers provider).2 = Except.ok g := by
  intro papers provider resp g h1 h2
  unfold generateKnowledgeGraphDataRun callApiWithRetry
  simp only [retryGo, h1, h2]

/-- Witness for C5 (amended): the dangling-link payload is returned. -/
theorem kg_no_link_validation_witness :
    (generateKnowledgeGraphDataRun [] kgProvider).2 = Except.ok kgDangling :=
  kg_no_link_validation [] kgProvider respKGDangling kgDangling rfl rfl

/-- C5 counterexample: a response whose single link targets the undeclared
node id `ghost` is returned to the caller as a success, although the
referential invariant fails on it. -/
theorem kg_dangling_link_returned_ce :
    (generateKnowledgeGraphDataRun [] kgProvider).2 = Except.ok kgDangling ∧
      specLinksResolve kgDangling = false := by
  exact ⟨rfl, rfl⟩

/-- C9 (amended): the topic-suggestion operation with an empty paper list
short-circuits to the empty list with zero provider invocations;
normalizer errors of the search operation propagate unchanged; but the
search operation downgrades a payload that parses to a non-array — an
error condition the code itself logs — to a silently returned empty
list. -/
theorem orchestrator_silent_empty_policy :
    (∀ (q : Str) (provider : Nat → Outcome (Option GenResponse)),
      suggestBroaderTopicsRun q [] provider = ([], Except.ok (Json.arr []))) ∧
    (∀ (now : Nat) (q : Str) (b : Bool) (provider : Nat → Outcome (Option GenResponse))
      (resp : Option GenResponse) (e : ApiError),
      provider 0 = Outcome.ok resp → processApiResponse resp = Except.error e →
      (deepSemanticSearchRun now q b provider).2 = Except.error e.message) ∧
    (∀ (now : Nat) (q : Str) (b : Bool) (provider : Nat → Outcome (Option GenResponse))
      (resp : Option GenResponse) (v : Json),
      provider 0 = Outcome.ok resp → processApiResponse resp = Except.ok v →
      isArr v = false →
      (deepSemanticSearchRun now q b provider).2 = Except.ok []) := by
  refine ⟨fun q provider => rfl, ?_, ?_⟩
  · intro now q b provider resp e h1 h2
    unfold deepSemanticSearchRun callApiWithRetry
    simp only [retryGo, h1, h2]
  · intro now q b provider resp v h1 h2 h3
    unfold deepSemanticSearchRun callApiWithRetry
    simp only [retryGo, h1, h2]
    cases v with
    | arr l => simp [isArr] at h3
    | null => rfl
    | bool x => rfl
    | num x => rfl
    | str x => rfl
    | obj x => rfl

/-- Witness for C9 (amended): the empty-list short-circuit and the silent
empty result on the non-array payload of the empty-object response. -/
theorem orchestrator_silent_empty_policy_witness :
    suggestBroaderTopicsRun "q".data [] providerObj = ([], Except.ok (Json.arr [])) ∧
      (deepSemanticSearchRun 0 "q".data false providerObj).2 = Except.ok [] :=
  ⟨orchestrator_silent_empty_policy.1 "q".data providerObj,
    orchestrator_silent_empty_policy.2.2 0 "q".data false providerObj respEmptyObj
      (Json.obj []) rfl rfl rfl⟩

/-- C9 counterexample: the search operation, given a provider response
whose payload parses to the non-array value, returns the empty list with
no error signalled — an error condition downgraded to a silent empty
result, in an operation other than the topic-suggestion short-circuit. -/
theorem search_silent_empty_on_nonarray_ce :
    processApiResponse respEmptyObj = Except.ok (Json.obj []) ∧
      (deepSemanticSearchRun 0 "q".data false providerObj).2 = Except.ok [] := by
  exact ⟨rfl, rfl⟩

/-! ### Behaviour of the comparison reshape -/

/-- Appending concatenates key counts. -/
theorem countKey_append {β : Type} (a b : List (Str × β)) (k : Str) :
    countKey (a ++ b) k = countKey a k + countKey b k := by
  simp [countKey, List.countP_append]

/-- Replacing the values at a key preserves that key's count. -/
theorem countKey_map_assign_self {β : Type} (k : Str) (v : β) :
    ∀ obj : List (Str × β),
      countKey (obj.map (fun e => if e.1 = k then (k, v) else e)) k = countKey obj k := by
  intro obj
  induction obj with
  | nil => rfl
  | cons e r ih =>
    simp only [List.map_cons, countKey, List.countP_cons] at ih ⊢
    by_cases he : e.1 = k
    · rw [if_pos he]
      simp [he, ih]
    · rw [if_neg he]
      simp [he, ih]

/-- Replacing the values at a key preserves every other key's count. -/
theorem countKey_map_assign_ne {β : Type} (k k2 : Str) (v : β) (hne : k2 ≠ k) :
    ∀ obj : List (Str × β),
      countKey (obj.map (fun e => if e.1 = k then (k, v) else e)) k2 = countKey obj k2 := by
  intro obj
  induction obj with
  | nil => rfl
  | cons e r ih =>
    simp only [List.map_cons, countKey, List.countP_cons] at ih ⊢
    by_cases he : e.1 = k
    · rw [if_pos he]
      have hk : ¬(k = k2) := fun hh => hne hh.symm
      have hek : ¬(e.1 = k2) := fun hh => hne (hh.symm.trans he)
      simp [hk, hek, ih]
    · rw [if_neg he]
      simp [ih]

/-- Assignment leaves exactly one entry at the assigned key, provided keys
were not duplicated before. -/
theorem countKey_jsAssign_self {β : Type} (obj : List (Str × β)) (k : Str) (v : β)
    (h : countKey obj k ≤ 1) : countKey (jsAssign obj k v) k = 1 := by
  unfold jsAssign
  by_cases ha : obj.any (fun e => decide (e.1 = k)) = true
  · rw [if_pos ha, countKey_map_assign_self]
    have hpos : 0 < countKey obj k := by
      obtain ⟨e, hmem, hp⟩ := List.any_eq_true.mp ha
      exact List.countP_pos_iff.mpr ⟨e, hmem, hp⟩
    omega
  · rw [if_neg ha, countKey_append]
    have h0 : countKey obj k = 0 := by
      rw [countKey, List.countP_eq_zero]
      intro e hmem hp
      exact ha (List.any_eq_true.mpr ⟨e, hmem, hp⟩)
    rw [h0]
    simp [countKey, List.countP_cons]

/-- Assignment preserves every other key's count. -/
theorem countKey_jsAssign_ne {β : Type} (obj : List (Str × β)) (k k2 : Str) (v : β)
    (hne : k2 ≠ k) : countKey (jsAssign obj k v) k2 = countKey obj k2 := by
  unfold jsAssign
  by_cases ha : obj.any (fun e => decide (e.1 = k)) = true
  · rw [if_pos ha, countKey_map_assign_ne k k2 v hne]
  · rw [if_neg ha, countKey_append]
    have hk : ¬(k = k2) := fun hh => hne hh.symm
    simp [countKey, List.countP_cons, hk]

/-- Key counts of the reshape loop: starting from an accumulator without
duplicated keys, the final mapping holds exactly one entry for each key
assigned during the loop, and the accumulator's count for the rest. -/
theorem buildPapersObject_go (pts : List RawPoint) :
    ∀ acc : List (Str × ComparisonPoint), (∀ k2, countKey acc k2 ≤ 1) →
      ∀ k, countKey (pts.foldl (fun a p => jsAssign a p.paperId (toPoint p)) acc) k =
        if k ∈ pts.map (fun p => p.paperId) then 1 else countKey acc k := by
  induction pts with
  | nil =>
    intro acc _ k
    simp
  | cons p ps ih =>
    intro acc hb k
    have hb2 : ∀ k2, countKey (jsAssign acc p.paperId (toPoint p)) k2 ≤ 1 := by
      intro k2
      by_cases hk : k2 = p.paperId
      · subst hk
        exact le_of_eq (countKey_jsAssign_self acc p.paperId (toPoint p) (hb p.paperId))
      · rw [countKey_jsAssign_ne acc p.paperId k2 (toPoint p) hk]
        exact hb k2
    rw [List.foldl_cons, ih (jsAssign acc p.paperId (toPoint p)) hb2 k]
    by_cases hmem : k ∈ ps.map (fun p => p.paperId)
    · simp [hmem]
    · rw [if_neg hmem]
      by_cases hk : k = p.paperId
      · subst hk
        rw [countKey_jsAssign_self acc p.paperId (toPoint p) (hb p.paperId)]
        simp
      · rw [countKey_jsAssign_ne acc p.paperId k (toPoint p) hk]
        have hout : ¬ k ∈ (p :: ps).map (fun p => p.paperId) := by
          simp [List.map_cons, List.mem_cons, hk, hmem]
        rw [if_neg hout]

/-- C8: the reshape of the compare operation turns each wire-format aspect
into a mapping holding exactly one entry for every paper identifier
present in that aspect's point list and no entry for any identifier absent
from it — absent papers are omitted, not mapped to a null entry. -/
theorem comparison_reshape_exact_entries :
    ∀ (aspects : List RawAspect) (i : Nat) (a : RawAspect),
      aspects.get? i = some a →
      ∃ ta : TAspect, (transformComparison aspects).get? i = some ta ∧
        ta.aspect = a.aspect ∧
        ∀ pid : Str, countKey ta.papers pid =
          if pid ∈ a.papers.map (fun p => p.paperId) then 1 else 0 := by
  intro aspects i a h
  refine ⟨⟨a.aspect, buildPapersObject a.papers⟩, ?_, rfl, ?_⟩
  · simp only [transformComparison, List.get?_map, h, Option.map_some']
  · intro pid
    have hgo := buildPapersObject_go a.papers [] (fun k2 => by simp [countKey]) pid
    simpa [buildPapersObject, countKey] using hgo

/-- Witness for C8: one aspect holding points for papers `p1` and `p2` —
each present paper gets exactly one entry, an absent paper gets none. -/
theorem comparison_reshape_exact_entries_witness :
    countKey (buildPapersObject aspectM.papers) "p1".data = 1 ∧
      countKey (buildPapersObject aspectM.papers) "p3".data = 0 := by
  obtain ⟨ta, h1, _, h3⟩ := comparison_reshape_exact_entries [aspectM] 0 aspectM rfl
  have hta : ta = ⟨aspectM.aspect, buildPapersObject aspectM.papers⟩ := by
    have h0 : (transformComparison [aspectM]).get? 0 =
        some ⟨aspectM.aspect, buildPapersObject aspectM.papers⟩ := rfl
    rw [h0] at h1
    exact (Option.some.inj h1).symm
  rw [hta] at h3
  constructor
  · rw [h3 "p1".data, if_pos (by decide)]
  · rw [h3 "p3".data, if_neg (by decide)]

end RA
